import Mathlib

/-!
Verification development for the particle updater subsystem
(`stonesoup/updater/particle.py`): a shallow embedding of the data model and
the update operations, followed by theorems about them.

Numeric values are embedded as exact real numbers (`ℝ`), so properties that
the informal description states "within floating tolerance" appear here as
exact equalities.  Pieces of the repository that live outside the embedded
file (the `Probability` type, `scipy.special.logsumexp`,
`functools.lru_cache`, `cholesky_eps`, `sde_euler_maruyama_integration`, the
Kalman updaters) are modelled from their documented behaviour or kept as
abstract parameters; each such definition says so in its doc string.
-/

/-- One weighted particle: a state-vector sample together with its
probability weight.  The repository stores weights as `Probability` values
(log-domain internally); here the linear-domain real value is carried and the
log/exp conversions performed by the code are made explicit at the use
sites. -/
structure Particle (V : Type) where
  state_vector : V
  weight : ℝ

/-- A particle state: an ordered collection of weighted particles plus a
timestamp. -/
structure ParticleState (V : Type) where
  particles : List (Particle V)
  timestamp : ℕ

/-- The weight vector of a particle state (the `weight` property). -/
def ParticleState.weight {V : Type} (s : ParticleState V) : List ℝ :=
  s.particles.map Particle.weight

/-- The state vectors of a particle state (the `state_vector` property). -/
def ParticleState.state_vector {V : Type} (s : ParticleState V) : List V :=
  s.particles.map Particle.state_vector

/-- The measurement-model capability used by `ParticleUpdater`: a forward
mapping from state space to measurement space and a log-likelihood density of
a measurement given a single particle state (the repository's vectorised
`logpdf` call evaluates this at every particle). -/
structure MeasurementModel (V M : Type) where
  function : V → M
  logpdf : M → V → ℝ

/-- A detection: a measurement-space vector, a timestamp and an optional
measurement-model override. -/
structure Detection (V M : Type) where
  state_vector : M
  timestamp : ℕ
  measurement_model : Option (MeasurementModel V M)

/-- A hypothesis pairs a particle prediction with an associated detection. -/
structure Hypothesis (V M : Type) where
  prediction : ParticleState V
  measurement : Detection V M

/-- The error taxonomy of an update call: a configuration error (no
measurement model resolvable) or a numerical error (a failed covariance
computation in a parallel branch). -/
inductive UpdateError where
  | configurationError
  | numericalError
  deriving DecidableEq

/-- Measurement-model resolution (lines 48-51): the hypothesis-level model
takes precedence, the updater's own model is the fallback. -/
def resolveModel {α : Type} (updaterModel : Option α) (measurementModel : Option α) :
    Option α :=
  match measurementModel with
  | none => updaterModel
  | some m => some m

/-- Modelled from the spec: `scipy.special.logsumexp` (the library routine is
outside the repository), the logarithm of the sum of exponentials of the
entries; the max-shifted implementation is mathematically equal to this. -/
noncomputable def logsumexp (l : List ℝ) : ℝ :=
  Real.log (l.map Real.exp).sum

/-- Modelled from the spec: `Probability.from_log_ufunc`
(`stonesoup/types/numeric.py`, not part of the embedded file) builds
probability values from an array of log-domain entries; the linear-domain
value of each entry is the exponential of its log representation. -/
noncomputable def probabilityFromLog (l : List ℝ) : List ℝ :=
  l.map Real.exp

/-- Lines 46-59 of `ParticleUpdater.update`: on a copy of the prediction, add
each particle's measurement log-likelihood to its log-weight, normalise the
log-weight vector with log-sum-exp, and store the result as the new weight
vector. -/
noncomputable def ParticleUpdater.reweighted {V M : Type}
    (measurement_model : MeasurementModel V M) (hyp : Hypothesis V M) :
    ParticleState V :=
  let new_weight : List ℝ :=
    hyp.prediction.particles.map
      (fun p => Real.log p.weight +
        measurement_model.logpdf hyp.measurement.state_vector p.state_vector)
  let new_weight : List ℝ := new_weight.map (fun x => x - logsumexp new_weight)
  { hyp.prediction with
    particles :=
      List.zipWith (fun p w => { p with weight := w })
        hyp.prediction.particles (probabilityFromLog new_weight) }

/-- The state posterior returned by `ParticleUpdater.update`
(`Update.from_state` with explicit state vectors and weights). -/
structure ParticleStateUpdate (V : Type) where
  state_vector : List V
  weight : List ℝ
  timestamp : ℕ

/-- `ParticleUpdater.update` (lines 32-72): resolve the measurement model
(failing with a configuration error when none is available, as the attribute
access on a missing model raises), reweight a copy of the prediction, hand
the normalised state to the resampler when one is configured, and build the
returned update from the resulting state at the measurement's timestamp. -/
noncomputable def ParticleUpdater.update {V M : Type}
    (resampler : Option (ParticleState V → ParticleState V))
    (self_measurement_model : Option (MeasurementModel V M))
    (hyp : Hypothesis V M) :
    Except UpdateError (ParticleStateUpdate V) :=
  match resolveModel self_measurement_model hyp.measurement.measurement_model with
  | none => .error .configurationError
  | some measurement_model =>
    let predicted_state := ParticleUpdater.reweighted measurement_model hyp
    let predicted_state :=
      match resampler with
      | some r => r predicted_state
      | none => predicted_state
    .ok { state_vector := predicted_state.state_vector,
          weight := predicted_state.weight,
          timestamp := hyp.measurement.timestamp }

/-! Helper lemmas about lists. -/

theorem zipWith_proj_right {α β : Type} :
    ∀ (ps : List α) (ws : List β), ps.length = ws.length →
      List.zipWith (fun _ w => w) ps ws = ws
  | [], [], _ => rfl
  | [], _ :: _, h => by simp at h
  | _ :: _, [], h => by simp at h
  | _ :: ps, _ :: ws, h => by
      simp only [List.zipWith_cons_cons, List.cons.injEq, true_and]
      exact zipWith_proj_right ps ws (by simpa using h)

theorem zipWith_proj_left {α β γ : Type} (g : α → γ) :
    ∀ (ps : List α) (ws : List β), ps.length = ws.length →
      List.zipWith (fun p _ => g p) ps ws = ps.map g
  | [], [], _ => rfl
  | [], _ :: _, h => by simp at h
  | _ :: _, [], h => by simp at h
  | _ :: ps, _ :: ws, h => by
      simp only [List.zipWith_cons_cons, List.map_cons, List.cons.injEq, true_and]
      exact zipWith_proj_left g ps ws (by simpa using h)

theorem sum_map_mul_const {α : Type} (g : α → ℝ) (c : ℝ) :
    ∀ l : List α, (l.map (fun x => g x * c)).sum = (l.map g).sum * c
  | [] => by simp
  | a :: l => by
      simp only [List.map_cons, List.sum_cons, sum_map_mul_const g c l, add_mul]

theorem sum_map_exp_pos (l : List ℝ) (h : l ≠ []) : 0 < (l.map Real.exp).sum := by
  cases l with
  | nil => exact absurd rfl h
  | cons a t =>
      simp only [List.map_cons, List.sum_cons]
      have ht : 0 ≤ (t.map Real.exp).sum := by
        apply List.sum_nonneg
        intro x hx
        obtain ⟨y, -, rfl⟩ := List.mem_map.mp hx
        exact (Real.exp_pos y).le
      linarith [Real.exp_pos a]

/-- The weight vector produced by the reweighting step, in closed form. -/
theorem reweighted_weight {V M : Type}
    (measurement_model : MeasurementModel V M) (hyp : Hypothesis V M) :
    (ParticleUpdater.reweighted measurement_model hyp).weight =
      (hyp.prediction.particles.map
        (fun p => Real.log p.weight +
          measurement_model.logpdf hyp.measurement.state_vector p.state_vector)).map
        (fun x => Real.exp (x - logsumexp
          (hyp.prediction.particles.map
            (fun p => Real.log p.weight +
              measurement_model.logpdf hyp.measurement.state_vector p.state_vector)))) := by
  unfold ParticleUpdater.reweighted ParticleState.weight probabilityFromLog
  simp only [List.map_zipWith]
  rw [zipWith_proj_right _ _ (by simp)]
  simp only [List.map_map]
  exact List.map_congr_left (fun x _ => rfl)

/-- The reweighting step does not move particles: state vectors are those of
the prediction. -/
theorem reweighted_state_vector {V M : Type}
    (measurement_model : MeasurementModel V M) (hyp : Hypothesis V M) :
    (ParticleUpdater.reweighted measurement_model hyp).state_vector =
      hyp.prediction.state_vector := by
  unfold ParticleUpdater.reweighted ParticleState.state_vector probabilityFromLog
  simp only [List.map_zipWith]
  rw [zipWith_proj_left _ _ _ (by simp)]

/-- Exponentials of a log-sum-exp-normalised vector sum to one. -/
theorem sum_exp_sub_logsumexp (l : List ℝ) (h : l ≠ []) :
    ((l.map (fun x => Real.exp (x - logsumexp l))).sum) = 1 := by
  have hS : 0 < (l.map Real.exp).sum := sum_map_exp_pos l h
  have hrw : (l.map (fun x => Real.exp (x - logsumexp l))) =
      l.map (fun x => Real.exp x * ((l.map Real.exp).sum)⁻¹) := by
    apply List.map_congr_left
    intro x _
    rw [Real.exp_sub, logsumexp, Real.exp_log hS, div_eq_mul_inv]
  rw [hrw, sum_map_mul_const]
  exact mul_inv_cancel₀ hS.ne'

/-- The normalised weight vector sums to one whenever the prediction holds at
least one particle. -/
theorem reweighted_weight_sum_one {V M : Type}
    (measurement_model : MeasurementModel V M) (hyp : Hypothesis V M)
    (hne : hyp.prediction.particles ≠ []) :
    (ParticleUpdater.reweighted measurement_model hyp).weight.sum = 1 := by
  rw [reweighted_weight]
  apply sum_exp_sub_logsumexp
  simpa using hne

/-- Every normalised weight is non-negative. -/
theorem reweighted_weight_nonneg {V M : Type}
    (measurement_model : MeasurementModel V M) (hyp : Hypothesis V M) :
    ∀ w ∈ (ParticleUpdater.reweighted measurement_model hyp).weight, 0 ≤ w := by
  rw [reweighted_weight]
  intro w hw
  obtain ⟨x, -, rfl⟩ := List.mem_map.mp hw
  exact (Real.exp_pos _).le

/-- Claim C1: for every hypothesis whose prediction is a weighted particle
set, `ParticleUpdater.update` adds each particle's measurement
log-likelihood to its log-weight and renormalises the log-weight vector with
log-sum-exp, so the returned weights are non-negative and sum to 1 (exactly,
in this real-number model), for any magnitude spread of input likelihoods;
moreover each returned weight is the prior weight times the likelihood,
divided by the total. -/
theorem claim_c1 {V M : Type}
    (self_measurement_model : Option (MeasurementModel V M))
    (hyp : Hypothesis V M) (measurement_model : MeasurementModel V M)
    (hres : resolveModel self_measurement_model hyp.measurement.measurement_model =
      some measurement_model)
    (hne : hyp.prediction.particles ≠ [])
    (hpos : ∀ p ∈ hyp.prediction.particles, 0 < p.weight) :
    ParticleUpdater.update none self_measurement_model hyp =
      .ok { state_vector :=
              (ParticleUpdater.reweighted measurement_model hyp).state_vector,
            weight := (ParticleUpdater.reweighted measurement_model hyp).weight,
            timestamp := hyp.measurement.timestamp }
    ∧ (∀ w ∈ (ParticleUpdater.reweighted measurement_model hyp).weight, 0 ≤ w)
    ∧ (ParticleUpdater.reweighted measurement_model hyp).weight.sum = 1
    ∧ (ParticleUpdater.reweighted measurement_model hyp).weight =
        hyp.prediction.particles.map (fun p =>
          p.weight * Real.exp
            (measurement_model.logpdf hyp.measurement.state_vector p.state_vector) /
          (hyp.prediction.particles.map (fun q =>
            q.weight * Real.exp
              (measurement_model.logpdf hyp.measurement.state_vector q.state_vector))).sum) := by
  refine ⟨?_, reweighted_weight_nonneg measurement_model hyp,
    reweighted_weight_sum_one measurement_model hyp hne, ?_⟩
  · unfold ParticleUpdater.update
    rw [hres]
  · rw [reweighted_weight, List.map_map]
    set L : Particle V → ℝ :=
      fun p => measurement_model.logpdf hyp.measurement.state_vector p.state_vector with hL
    have hexp : ∀ p ∈ hyp.prediction.particles,
        Real.exp (Real.log p.weight + L p) = p.weight * Real.exp (L p) := by
      intro p hp
      rw [Real.exp_add, Real.exp_log (hpos p hp)]
    have hS : (hyp.prediction.particles.map
          (fun p => Real.log p.weight + L p)).map Real.exp =
        hyp.prediction.particles.map (fun p => p.weight * Real.exp (L p)) := by
      rw [List.map_map]
      exact List.map_congr_left hexp
    apply List.map_congr_left
    intro p hp
    simp only [Function.comp_apply]
    rw [Real.exp_sub, hexp p hp, logsumexp, hS,
      Real.exp_log]
    have hne' : hyp.prediction.particles.map (fun p => p.weight * Real.exp (L p)) ≠ [] := by
      simpa using hne
    have : (hyp.prediction.particles.map (fun p => p.weight * Real.exp (L p))) =
        (hyp.prediction.particles.map (fun p => Real.log p.weight + L p)).map Real.exp := by
      rw [hS]
    rw [this]
    apply sum_map_exp_pos
    simpa using hne

/-- Concrete measurement model for witnesses. -/
noncomputable def wModel : MeasurementModel ℕ ℕ where
  function := fun x => x
  logpdf := fun _ _ => 0

/-- Concrete hypothesis for witnesses: one particle of weight 1. -/
noncomputable def wHyp : Hypothesis ℕ ℕ where
  prediction := { particles := [{ state_vector := 0, weight := 1 }], timestamp := 0 }
  measurement := { state_vector := 0, timestamp := 3, measurement_model := none }

theorem claim_c1_witness :
    (resolveModel (some wModel) wHyp.measurement.measurement_model = some wModel)
    ∧ (wHyp.prediction.particles ≠ [])
    ∧ (∀ p ∈ wHyp.prediction.particles, 0 < p.weight)
    ∧ ((∀ w ∈ (ParticleUpdater.reweighted wModel wHyp).weight, 0 ≤ w)
        ∧ (ParticleUpdater.reweighted wModel wHyp).weight.sum = 1) := by
  have hres : resolveModel (some wModel) wHyp.measurement.measurement_model = some wModel := rfl
  have hne : wHyp.prediction.particles ≠ [] := by simp [wHyp]
  have hpos : ∀ p ∈ wHyp.prediction.particles, 0 < p.weight := by
    intro p hp
    simp only [wHyp, List.mem_singleton] at hp
    rw [hp]
    norm_num
  obtain ⟨-, h2, h3, -⟩ := claim_c1 (some wModel) wHyp wModel hres hne hpos
  exact ⟨hres, hne, hpos, h2, h3⟩

/-- Claim C7: with a resampler configured, the returned particles are exactly
the resampler's output on the reweighted state (one invocation, never
overridden); with no resampler, the returned state vectors are the
prediction's state vectors and only the weights change. -/
theorem claim_c7 {V M : Type}
    (self_measurement_model : Option (MeasurementModel V M))
    (hyp : Hypothesis V M) (measurement_model : MeasurementModel V M)
    (hres : resolveModel self_measurement_model hyp.measurement.measurement_model =
      some measurement_model) :
    (∀ resampler : ParticleState V → ParticleState V,
      ParticleUpdater.update (some resampler) self_measurement_model hyp =
        .ok { state_vector :=
                (resampler (ParticleUpdater.reweighted measurement_model hyp)).state_vector,
              weight :=
                (resampler (ParticleUpdater.reweighted measurement_model hyp)).weight,
              timestamp := hyp.measurement.timestamp })
    ∧ ParticleUpdater.update none self_measurement_model hyp =
        .ok { state_vector := hyp.prediction.state_vector,
              weight := (ParticleUpdater.reweighted measurement_model hyp).weight,
              timestamp := hyp.measurement.timestamp } := by
  constructor
  · intro resampler
    unfold ParticleUpdater.update
    rw [hres]
  · unfold ParticleUpdater.update
    rw [hres, ← reweighted_state_vector measurement_model hyp]

theorem claim_c7_witness :
    (resolveModel (some wModel) wHyp.measurement.measurement_model = some wModel)
    ∧ ParticleUpdater.update (some (fun s => s)) (some wModel) wHyp =
        .ok { state_vector := (ParticleUpdater.reweighted wModel wHyp).state_vector,
              weight := (ParticleUpdater.reweighted wModel wHyp).weight,
              timestamp := wHyp.measurement.timestamp }
    ∧ ParticleUpdater.update none (some wModel) wHyp =
        .ok { state_vector := wHyp.prediction.state_vector,
              weight := (ParticleUpdater.reweighted wModel wHyp).weight,
              timestamp := wHyp.measurement.timestamp } := by
  have h := claim_c7 (some wModel) wHyp wModel rfl
  exact ⟨rfl, h.1 (fun s => s), h.2⟩

/-- Claim C10: whenever a resampler is configured, the particle state handed
to it is the reweighted state, whose weights are already normalised
(non-negative and summing to 1), and the resampler's output is returned with
no further renormalisation. -/
theorem claim_c10 {V M : Type}
    (self_measurement_model : Option (MeasurementModel V M))
    (hyp : Hypothesis V M) (measurement_model : MeasurementModel V M)
    (hres : resolveModel self_measurement_model hyp.measurement.measurement_model =
      some measurement_model)
    (hne : hyp.prediction.particles ≠ []) :
    ((ParticleUpdater.reweighted measurement_model hyp).weight.sum = 1
      ∧ ∀ w ∈ (ParticleUpdater.reweighted measurement_model hyp).weight, 0 ≤ w)
    ∧ ∀ resampler : ParticleState V → ParticleState V,
        ParticleUpdater.update (some resampler) self_measurement_model hyp =
          .ok { state_vector :=
                  (resampler (ParticleUpdater.reweighted measurement_model hyp)).state_vector,
                weight :=
                  (resampler (ParticleUpdater.reweighted measurement_model hyp)).weight,
                timestamp := hyp.measurement.timestamp } := by
  refine ⟨⟨reweighted_weight_sum_one measurement_model hyp hne,
    reweighted_weight_nonneg measurement_model hyp⟩, ?_⟩
  intro resampler
  unfold ParticleUpdater.update
  rw [hres]

theorem claim_c10_witness :
    (resolveModel (some wModel) wHyp.measurement.measurement_model = some wModel)
    ∧ (wHyp.prediction.particles ≠ [])
    ∧ ((ParticleUpdater.reweighted wModel wHyp).weight.sum = 1
        ∧ ∀ w ∈ (ParticleUpdater.reweighted wModel wHyp).weight, 0 ≤ w)
    ∧ ParticleUpdater.update (some (fun s => s)) (some wModel) wHyp =
        .ok { state_vector := (ParticleUpdater.reweighted wModel wHyp).state_vector,
              weight := (ParticleUpdater.reweighted wModel wHyp).weight,
              timestamp := wHyp.measurement.timestamp } := by
  have hne : wHyp.prediction.particles ≠ [] := by simp [wHyp]
  have h := claim_c10 (some wModel) wHyp wModel rfl hne
  exact ⟨rfl, hne, h.1, h.2 (fun s => s)⟩

/-! An explicit object store models Python aliasing: objects are list
entries, references are indices, `copy.copy` appends a duplicate, and an
attribute assignment writes at the object's index. -/

theorem getD_set_ne {α : Type} :
    ∀ (l : List α) (i j : ℕ) (v d : α), i ≠ j →
      (l.set i v).getD j d = l.getD j d
  | [], _, _, _, _, _ => rfl
  | _ :: _, 0, 0, _, _, h => absurd rfl h
  | _ :: _, 0, _ + 1, _, _, _ => rfl
  | _ :: _, _ + 1, 0, _, _, _ => rfl
  | _ :: t, i + 1, j + 1, v, d, h => by
      simp only [List.set_cons_succ, List.getD_cons_succ]
      exact getD_set_ne t i j v d (fun he => h (by rw [he]))

theorem getD_append_lt {α : Type} :
    ∀ (l l2 : List α) (j : ℕ) (d : α), j < l.length →
      (l ++ l2).getD j d = l.getD j d
  | [], _, _, _, h => absurd h (by simp)
  | _ :: _, _, 0, _, _ => rfl
  | _ :: t, l2, j + 1, d, h => by
      simp only [List.cons_append, List.getD_cons_succ]
      exact getD_append_lt t l2 j d (by simpa using h)

theorem foldl_set_getD_ne {α : Type} (g : List α → ℕ → α) (j : ℕ) (d : α) :
    ∀ (addrs : List ℕ) (h : List α), (∀ a ∈ addrs, a ≠ j) →
      (addrs.foldl (fun st a => st.set a (g st a)) h).getD j d = h.getD j d
  | [], _, _ => rfl
  | a :: t, h, hne => by
      simp only [List.foldl_cons]
      rw [foldl_set_getD_ne g j d t _ (fun b hb => hne b (List.mem_cons_of_mem a hb)),
        getD_set_ne _ _ _ _ _ (hne a (List.mem_cons_self a t))]

/-- `ParticleUpdater.update` with the object store explicit: the prediction
object lives at index `predAddr`; `copy.copy(hypothesis.prediction)`
(line 46) appends a duplicate, and the weight assignment (line 59) writes the
reweighted state at the copy's index.  Returns the final store and the update
value. -/
noncomputable def ParticleUpdater.updateStore {V M : Type}
    (measurement_model : MeasurementModel V M)
    (resampler : Option (ParticleState V → ParticleState V))
    (store : List (ParticleState V)) (predAddr : ℕ) (meas : Detection V M) :
    List (ParticleState V) × ParticleStateUpdate V :=
  let pred := store.getD predAddr { particles := [], timestamp := 0 }
  let copyAddr := store.length
  let store := store ++ [pred]
  let store := store.set copyAddr
    (ParticleUpdater.reweighted measurement_model
      { prediction := pred, measurement := meas })
  let predicted_state := store.getD copyAddr { particles := [], timestamp := 0 }
  let predicted_state :=
    match resampler with
    | some r => r predicted_state
    | none => predicted_state
  (store,
   { state_vector := predicted_state.state_vector,
     weight := predicted_state.weight,
     timestamp := meas.timestamp })

/-- The flow updater's particle handling with the object store explicit: the
prediction's particles live at the indices `predAddrs`; the comprehension at
line 125 allocates a copy of each, and the loop at lines 145-146 overwrites
each copy's state vector with the integration result `integ`. -/
def GromovFlow.migrateStore {V : Type} (integ : Particle V → V) (d0 : Particle V)
    (store : List (Particle V)) (predAddrs : List ℕ) :
    List (Particle V) × List ℕ :=
  let copies := predAddrs.map (fun a => store.getD a d0)
  let copyAddrs := List.range' store.length copies.length
  let store := store ++ copies
  let store := copyAddrs.foldl
    (fun st a =>
      st.set a { st.getD a d0 with state_vector := integ (st.getD a d0) }) store
  (store, copyAddrs)

/-- Claim C8: no update call mutates its input.  After
`ParticleUpdater.update` every pre-existing object of the store, the
hypothesis's prediction included, is unchanged (the weight update is written
onto a fresh copy); after the flow updater's particle migration every
pre-existing particle object retains its original state vector (each particle
is copied before the flow integration overwrites state vectors). -/
theorem claim_c8 :
    (∀ (V M : Type) (measurement_model : MeasurementModel V M)
        (resampler : Option (ParticleState V → ParticleState V))
        (store : List (ParticleState V)) (predAddr j : ℕ) (meas : Detection V M)
        (d : ParticleState V), j < store.length →
      ((ParticleUpdater.updateStore measurement_model resampler store predAddr meas).1).getD j d
        = store.getD j d)
    ∧ (∀ (V : Type) (integ : Particle V → V) (d0 : Particle V)
        (store : List (Particle V)) (predAddrs : List ℕ) (j : ℕ) (d : Particle V),
        j < store.length →
      ((GromovFlow.migrateStore integ d0 store predAddrs).1).getD j d = store.getD j d) := by
  constructor
  · intro V M measurement_model resampler store predAddr j meas d hj
    unfold ParticleUpdater.updateStore
    rw [getD_set_ne _ _ _ _ _ (Nat.ne_of_gt hj), getD_append_lt _ _ _ _ hj]
  · intro V integ d0 store predAddrs j d hj
    unfold GromovFlow.migrateStore
    rw [foldl_set_getD_ne (fun st a => { st.getD a d0 with state_vector := integ (st.getD a d0) })
        j d _ _ ?_, getD_append_lt _ _ _ _ hj]
    intro a ha
    have := List.mem_range'_1.mp ha
    exact Nat.ne_of_gt (lt_of_lt_of_le hj this.1)

/-- Concrete particle-state object for witnesses. -/
noncomputable def wStateObj : ParticleState ℕ :=
  { particles := [{ state_vector := 5, weight := 1 }], timestamp := 1 }

theorem claim_c8_witness :
    ((0 : ℕ) < [wStateObj].length
      ∧ ((ParticleUpdater.updateStore wModel none [wStateObj] 0
            wHyp.measurement).1).getD 0 wStateObj = [wStateObj].getD 0 wStateObj)
    ∧ ((0 : ℕ) < [({ state_vector := 5, weight := 1 } : Particle ℕ)].length
      ∧ ((GromovFlow.migrateStore (fun p => p.state_vector + 1)
            { state_vector := 0, weight := 1 }
            [({ state_vector := 5, weight := 1 } : Particle ℕ)] [0]).1).getD 0
            { state_vector := 0, weight := 1 }
          = [({ state_vector := 5, weight := 1 } : Particle ℕ)].getD 0
              { state_vector := 0, weight := 1 }) := by
  constructor
  · exact ⟨by decide,
      claim_c8.1 ℕ ℕ wModel none [wStateObj] 0 0 wHyp.measurement wStateObj (by decide)⟩
  · exact ⟨by decide,
      claim_c8.2 ℕ (fun p => p.state_vector + 1) { state_vector := 0, weight := 1 }
        [{ state_vector := 5, weight := 1 }] [0] 0 { state_vector := 0, weight := 1 }
        (by decide)⟩

/-- A measurement prediction: prior weights, state vectors mapped into
measurement space, prior timestamp. -/
structure MeasurementPrediction (M : Type) where
  state_vector : List M
  weight : List ℝ
  timestamp : ℕ

/-- `ParticleUpdater.predict_measurement` (lines 74-86, without the cache
decoration): resolve the model (the passed argument takes precedence, the
updater's own model is the fallback), map every particle's state vector
through the model's forward function and keep the prior weights and
timestamp. -/
noncomputable def ParticleUpdater.predict_measurement {V M : Type}
    (self_measurement_model : Option (MeasurementModel V M))
    (measurement_model : Option (MeasurementModel V M))
    (state_prediction : ParticleState V) :
    Except UpdateError (MeasurementPrediction M) :=
  match resolveModel self_measurement_model measurement_model with
  | none => .error .configurationError
  | some model =>
    .ok { state_vector :=
            state_prediction.particles.map (fun p => model.function p.state_vector),
          weight := state_prediction.weight,
          timestamp := state_prediction.timestamp }

/-- Modelled from the spec: the `functools.lru_cache` decoration on
`predict_measurement` (the library decorator lives outside the repository).
Python keys the cache on the identities of the argument objects; identities
are naturals resolved through the `predictions` and `models` registries, and
raised errors are not cached. -/
noncomputable def ParticleUpdater.predictMeasurementCached {V M : Type}
    (self_measurement_model : Option (MeasurementModel V M))
    (predictions : ℕ → ParticleState V)
    (models : ℕ → Option (MeasurementModel V M))
    (cache : List ((ℕ × ℕ) × MeasurementPrediction M))
    (predId modelId : ℕ) :
    Except UpdateError (MeasurementPrediction M) ×
      List ((ℕ × ℕ) × MeasurementPrediction M) :=
  match cache.lookup (predId, modelId) with
  | some r => (.ok r, cache)
  | none =>
    match ParticleUpdater.predict_measurement self_measurement_model (models modelId)
        (predictions predId) with
    | .ok r => (.ok r, ((predId, modelId), r) :: cache)
    | .error e => (.error e, cache)

/-- Claim C6: `predict_measurement` is a pure function whose result maps the
prediction through the model's forward function with weights unchanged; it is
memoized, so a repeated call with the same (prediction, model) key returns
the cached result and leaves the cache as it was, while a call whose key is
not cached is computed independently of every existing cache entry. -/
theorem claim_c6 (V M : Type) :
    (∀ (self_measurement_model measurement_model : Option (MeasurementModel V M))
        (state_prediction : ParticleState V) (model : MeasurementModel V M),
      resolveModel self_measurement_model measurement_model = some model →
      ParticleUpdater.predict_measurement self_measurement_model measurement_model
          state_prediction =
        .ok { state_vector :=
                state_prediction.particles.map (fun p => model.function p.state_vector),
              weight := state_prediction.weight,
              timestamp := state_prediction.timestamp })
    ∧ (∀ (self_measurement_model : Option (MeasurementModel V M))
        (predictions : ℕ → ParticleState V)
        (models : ℕ → Option (MeasurementModel V M))
        (cache : List ((ℕ × ℕ) × MeasurementPrediction M)) (predId modelId : ℕ),
      ParticleUpdater.predictMeasurementCached self_measurement_model predictions models
          (ParticleUpdater.predictMeasurementCached self_measurement_model predictions
            models cache predId modelId).2 predId modelId
        = ParticleUpdater.predictMeasurementCached self_measurement_model predictions
            models cache predId modelId)
    ∧ (∀ (self_measurement_model : Option (MeasurementModel V M))
        (predictions : ℕ → ParticleState V)
        (models : ℕ → Option (MeasurementModel V M))
        (cache : List ((ℕ × ℕ) × MeasurementPrediction M)) (predId modelId : ℕ),
      cache.lookup (predId, modelId) = none →
      (ParticleUpdater.predictMeasurementCached self_measurement_model predictions models
          cache predId modelId).1
        = ParticleUpdater.predict_measurement self_measurement_model (models modelId)
            (predictions predId)) := by
  refine ⟨?_, ?_, ?_⟩
  · intro self_measurement_model measurement_model state_prediction model hres
    unfold ParticleUpdater.predict_measurement
    rw [hres]
  · intro self_measurement_model predictions models cache predId modelId
    cases h1 : cache.lookup (predId, modelId) with
    | some r =>
        simp only [ParticleUpdater.predictMeasurementCached, h1]
    | none =>
        cases h2 : ParticleUpdater.predict_measurement self_measurement_model
            (models modelId) (predictions predId) with
        | ok r =>
            simp only [ParticleUpdater.predictMeasurementCached, h1, h2, List.lookup,
              beq_self_eq_true, if_true]
        | error e =>
            simp only [ParticleUpdater.predictMeasurementCached, h1, h2]
  · intro self_measurement_model predictions models cache predId modelId h1
    cases h2 : ParticleUpdater.predict_measurement self_measurement_model
        (models modelId) (predictions predId) with
    | ok r =>
        simp only [ParticleUpdater.predictMeasurementCached, h1, h2]
    | error e =>
        simp only [ParticleUpdater.predictMeasurementCached, h1, h2]

theorem claim_c6_witness :
    (resolveModel (some wModel) none = some wModel
      ∧ ParticleUpdater.predict_measurement (some wModel) none wHyp.prediction =
          .ok { state_vector :=
                  wHyp.prediction.particles.map (fun p => wModel.function p.state_vector),
                weight := wHyp.prediction.weight,
                timestamp := wHyp.prediction.timestamp })
    ∧ ParticleUpdater.predictMeasurementCached (some wModel) (fun _ => wHyp.prediction)
          (fun _ => none)
          (ParticleUpdater.predictMeasurementCached (some wModel) (fun _ => wHyp.prediction)
            (fun _ => none) [] 0 0).2 0 0
        = ParticleUpdater.predictMeasurementCached (some wModel) (fun _ => wHyp.prediction)
            (fun _ => none) [] 0 0
    ∧ (List.lookup ((0 : ℕ), (0 : ℕ))
          ([] : List ((ℕ × ℕ) × MeasurementPrediction ℕ)) = none
        ∧ (ParticleUpdater.predictMeasurementCached (some wModel) (fun _ => wHyp.prediction)
            (fun _ => none) [] 0 0).1
          = ParticleUpdater.predict_measurement (some wModel) none wHyp.prediction) := by
  have h := claim_c6 ℕ ℕ
  exact ⟨⟨rfl, h.1 (some wModel) none wHyp.prediction wModel rfl⟩,
    h.2.1 (some wModel) (fun _ => wHyp.prediction) (fun _ => none) [] 0 0,
    rfl, h.2.2 (some wModel) (fun _ => wHyp.prediction) (fun _ => none) [] 0 0 rfl⟩

/-! The particle-flow updaters. -/

/-- The pseudo-time step sizes of `GromovFlowParticleUpdater.update`
(lines 112-115): twenty steps growing by a factor of two, scaled so they sum
to one; exact rational arithmetic stands in for the floating-point
computation. -/
def gromovSteps : List ℚ :=
  (List.range 20).map (fun n => ((2 - 1) / (2 ^ 20 - 1) : ℚ) * 2 ^ n)

/-- The cumulative pseudo-times (lines 117-118): a leading zero followed by
the prefix sums of the step sizes. -/
def gromovTimeSteps : List ℚ :=
  List.scanl (fun a b => a + b) 0 gromovSteps

theorem sum_geom_list (c : ℚ) :
    ∀ N : ℕ, ((List.range N).map (fun n => c * 2 ^ n)).sum = c * (2 ^ N - 1)
  | 0 => by simp
  | N + 1 => by
      rw [List.range_succ, List.map_append, List.sum_append, sum_geom_list c N]
      simp only [List.map_cons, List.map_nil, List.sum_cons, List.sum_nil]
      ring

theorem chain'_scanl_add :
    ∀ (l : List ℚ) (a : ℚ), (∀ x ∈ l, 0 < x) →
      List.Chain' (fun p q => p < q) (List.scanl (fun s x => s + x) a l)
  | [], _, _ => by simp [List.scanl]
  | x :: t, a, h => by
      rw [List.scanl]
      rw [List.chain'_cons']
      refine ⟨?_, chain'_scanl_add t (a + x) (fun y hy => h y (List.mem_cons_of_mem x hy))⟩
      intro y hy
      have hhead : (List.scanl (fun s x => s + x) (a + x) t).head? = some (a + x) := by
        cases t <;> rfl
      rw [hhead, Option.mem_some_iff] at hy
      have hx := h x (List.mem_cons_self x t)
      rw [← hy]
      linarith

theorem getLast?_scanl_add :
    ∀ (l : List ℚ) (a : ℚ),
      (List.scanl (fun s x => s + x) a l).getLast? = some (a + l.sum)
  | [], a => by simp [List.scanl]
  | x :: t, a => by
      rw [List.scanl, List.sum_cons, ← add_assoc]
      cases t with
      | nil => simp [List.scanl]
      | cons z t2 =>
          rw [List.scanl, List.getLast?_cons_cons]
          have h := getLast?_scanl_add (z :: t2) (a + x)
          rw [List.scanl] at h
          exact h

theorem gromovSteps_getD (n : ℕ) (hn : n < 20) :
    gromovSteps.getD n 0 = ((2 - 1) / (2 ^ 20 - 1) : ℚ) * 2 ^ n := by
  unfold gromovSteps
  rw [List.getD_eq_getElem?_getD, List.getElem?_map, List.getElem?_range hn]
  rfl

theorem gromovSteps_pos : ∀ x ∈ gromovSteps, 0 < x := by
  intro x hx
  obtain ⟨n, -, rfl⟩ := List.mem_map.mp hx
  positivity

/-- Claim C4: the schedule has exactly 20 steps of sizes s0 * 2 ^ n with
s0 = (2 - 1) / (2 ^ 20 - 1); the step sizes sum exactly to 1 (exact in this
rational model), the cumulative pseudo-times start at 0, and they increase
strictly monotonically from 0 up to 1. -/
theorem claim_c4 :
    gromovSteps.length = 20
    ∧ (∀ n < 20, gromovSteps.getD n 0 = ((2 - 1) / (2 ^ 20 - 1) : ℚ) * 2 ^ n)
    ∧ gromovSteps.sum = 1
    ∧ gromovTimeSteps.length = 21
    ∧ gromovTimeSteps.getD 0 0 = 0
    ∧ gromovTimeSteps.getLast? = some 1
    ∧ List.Chain' (fun a b => a < b) gromovTimeSteps := by
  have hsum : gromovSteps.sum = 1 := by
    rw [gromovSteps, sum_geom_list]
    norm_num
  refine ⟨by simp [gromovSteps], fun n hn => gromovSteps_getD n hn, hsum, ?_, rfl, ?_, ?_⟩
  · simp [gromovTimeSteps, gromovSteps, List.length_scanl]
  · rw [gromovTimeSteps, getLast?_scanl_add, hsum]
    norm_num
  · exact chain'_scanl_add gromovSteps 0 gromovSteps_pos

theorem claim_c4_witness :
    (0 : ℕ) < 20
    ∧ gromovSteps.getD 0 0 = ((2 - 1) / (2 ^ 20 - 1) : ℚ) * 2 ^ 0 :=
  ⟨by decide, claim_c4.2.1 0 (by decide)⟩

/-- The measurement-model capability used by the flow updaters: an optional
exact linear matrix (absent when the `matrix` attribute raises), a Jacobian,
the forward function and the measurement-noise covariance. -/
structure FlowModel (d m : ℕ) where
  matrix : Option (Matrix (Fin m) (Fin d) ℝ)
  jacobian : (Fin d → ℝ) → Matrix (Fin m) (Fin d) ℝ
  function : (Fin d → ℝ) → (Fin m → ℝ)
  covar : Matrix (Fin m) (Fin m) ℝ

/-- The linearisation used at a given state (lines 128-131): the model's
exact linear matrix when it exists, otherwise the Jacobian at the state. -/
def flowH {d m : ℕ} (measurement_model : FlowModel d m) (state : Fin d → ℝ) :
    Matrix (Fin m) (Fin d) ℝ :=
  match measurement_model.matrix with
  | some mat => mat
  | none => measurement_model.jacobian state

/-- The drift/diffusion coefficient closure of
`GromovFlowParticleUpdater.update` (lines 127-143), with `cholesky_eps` (the
jitter-stabilised Cholesky factor from `stonesoup/functions.py`, outside the
embedded file) abstracted as `chol`; multiplications associate exactly as the
Python expression does, and the elementwise halving is a scalar product. -/
noncomputable def flowFunction {d m : ℕ}
    (chol : Matrix (Fin d) (Fin d) ℝ → Matrix (Fin d) (Fin d) ℝ)
    (measurement_model : FlowModel d m) (P : Matrix (Fin d) (Fin d) ℝ)
    (z : Fin m → ℝ) (state : Fin d → ℝ) (lambda : ℝ) :
    (Fin d → ℝ) × Matrix (Fin d) (Fin d) ℝ :=
  let H := flowH measurement_model state
  let R := measurement_model.covar
  let a := P - (lambda • P) * H.transpose * (R + (lambda • H) * P * H.transpose)⁻¹ * H * P
  let b := a * H.transpose * R⁻¹
  let f := -(b.mulVec (measurement_model.function state - z))
  let Q := b * H * a
  (f, chol (((2 : ℝ)⁻¹) • (Q + Q.transpose)))

/-- The same coefficients written as the specification states them:
A(λ) = P − λ·P·Hᵗ·(R + λ·H·P·Hᵗ)⁻¹·H·P, B(λ) = A(λ)·Hᵗ·R⁻¹, drift
f = −B(λ)·(h(state) − z), and a stabilised square root of the symmetrised
Q(λ) = B(λ)·H·A(λ). -/
noncomputable def flowFunctionSpec {d m : ℕ}
    (chol : Matrix (Fin d) (Fin d) ℝ → Matrix (Fin d) (Fin d) ℝ)
    (measurement_model : FlowModel d m) (P : Matrix (Fin d) (Fin d) ℝ)
    (z : Fin m → ℝ) (state : Fin d → ℝ) (lambda : ℝ) :
    (Fin d → ℝ) × Matrix (Fin d) (Fin d) ℝ :=
  let H := flowH measurement_model state
  let R := measurement_model.covar
  let A := P - lambda • (P * H.transpose * (R + lambda • (H * P * H.transpose))⁻¹ * H * P)
  let B := A * H.transpose * R⁻¹
  let f := -(B.mulVec (measurement_model.function state - z))
  let Q := B * H * A
  (f, chol (((2 : ℝ)⁻¹) • (Q + Q.transpose)))

/-- Claim C3: the coefficient closure computes the drift
f = −B(λ)·(h(state) − z) and a stabilised square root of the symmetrised
Q(λ) with A(λ), B(λ), Q(λ) exactly as the specification writes them, and the
linearisation H is the model's exact linear matrix when available, the
Jacobian at the particle's current state only otherwise. -/
theorem claim_c3 {d m : ℕ}
    (chol : Matrix (Fin d) (Fin d) ℝ → Matrix (Fin d) (Fin d) ℝ)
    (measurement_model : FlowModel d m) (P : Matrix (Fin d) (Fin d) ℝ)
    (z : Fin m → ℝ) :
    (∀ (state : Fin d → ℝ) (lambda : ℝ),
      flowFunction chol measurement_model P z state lambda =
        flowFunctionSpec chol measurement_model P z state lambda)
    ∧ (∀ (state : Fin d → ℝ) (mat : Matrix (Fin m) (Fin d) ℝ),
        measurement_model.matrix = some mat →
          flowH measurement_model state = mat)
    ∧ (∀ state : Fin d → ℝ, measurement_model.matrix = none →
        flowH measurement_model state = measurement_model.jacobian state) := by
  refine ⟨?_, ?_, ?_⟩
  · intro state lambda
    unfold flowFunction flowFunctionSpec
    simp only [Matrix.smul_mul]
  · intro state mat h
    unfold flowH
    rw [h]
  · intro state h
    unfold flowH
    rw [h]

/-- A detection consumed by the flow updaters. -/
structure FlowDetection (d m : ℕ) where
  state_vector : Fin m → ℝ
  timestamp : ℕ
  measurement_model : Option (FlowModel d m)

/-- A hypothesis consumed by the flow updaters. -/
structure FlowHypothesis (d m : ℕ) where
  prediction : ParticleState (Fin d → ℝ)
  measurement : FlowDetection d m

/-- A flow-updated particle state: the migrated particle list, an optional
fixed covariance override and a timestamp. -/
structure FlowStateUpdate (d : ℕ) where
  particles : List (Particle (Fin d → ℝ))
  fixed_covar : Option (Matrix (Fin d) (Fin d) ℝ)
  timestamp : ℕ

/-- The state vectors of a flow update (the `state_vector` property). -/
def FlowStateUpdate.state_vector {d : ℕ} (u : FlowStateUpdate d) : List (Fin d → ℝ) :=
  u.particles.map Particle.state_vector

/-- The weight vector of a flow update (the `weight` property). -/
def FlowStateUpdate.weight {d : ℕ} (u : FlowStateUpdate d) : List ℝ :=
  u.particles.map Particle.weight

/-- Modelled from the spec: the particle distribution's weighted mean (the
repository derives the `mean` attribute in `stonesoup/types/state.py`,
outside the embedded file). -/
noncomputable def particleMean {d : ℕ} (s : ParticleState (Fin d → ℝ)) : Fin d → ℝ :=
  fun i => (s.particles.map (fun p => p.weight * p.state_vector i)).sum

/-- Modelled from the spec: the weighted sample covariance of the particle
distribution (the repository derives the `covar` attribute in
`stonesoup/types/state.py`, outside the embedded file). -/
noncomputable def particleCovar {d : ℕ} (s : ParticleState (Fin d → ℝ)) :
    Matrix (Fin d) (Fin d) ℝ :=
  Matrix.of fun i j =>
    (s.particles.map (fun p =>
      p.weight * (p.state_vector i - particleMean s i)
        * (p.state_vector j - particleMean s j))).sum

/-- `GromovFlowParticleUpdater.update` (lines 105-152): resolve the model,
build the pseudo-time schedule, copy every particle and overwrite the copy's
state vector with the integration of the flow coefficients across the
schedule, and return the migrated particles at the measurement's timestamp
with no fixed covariance.  `integ` abstracts
`sde_euler_maruyama_integration` (`stonesoup/functions.py`, outside the
embedded file) and `chol` abstracts `cholesky_eps`. -/
noncomputable def GromovFlowParticleUpdater.update {d m : ℕ}
    (integ : ((Fin d → ℝ) → ℝ → (Fin d → ℝ) × Matrix (Fin d) (Fin d) ℝ) →
      List ℝ → (Fin d → ℝ) → (Fin d → ℝ))
    (chol : Matrix (Fin d) (Fin d) ℝ → Matrix (Fin d) (Fin d) ℝ)
    (self_measurement_model : Option (FlowModel d m))
    (hyp : FlowHypothesis d m) :
    Except UpdateError (FlowStateUpdate d) :=
  match resolveModel self_measurement_model hyp.measurement.measurement_model with
  | none => .error .configurationError
  | some measurement_model =>
    let time_steps : List ℝ := gromovTimeSteps.map (fun q => (q : ℝ))
    let P := particleCovar hyp.prediction
    let particles := hyp.prediction.particles.map (fun particle =>
      { particle with
        state_vector :=
          integ (flowFunction chol measurement_model P hyp.measurement.state_vector)
            time_steps particle.state_vector })
    .ok { particles := particles, fixed_covar := none,
          timestamp := hyp.measurement.timestamp }

/-- Claim C5: the flow update returns exactly as many particles as the
prediction, the weight vector is the prediction's weight vector unchanged,
and the timestamp is the measurement's timestamp. -/
theorem claim_c5 {d m : ℕ}
    (integ : ((Fin d → ℝ) → ℝ → (Fin d → ℝ) × Matrix (Fin d) (Fin d) ℝ) →
      List ℝ → (Fin d → ℝ) → (Fin d → ℝ))
    (chol : Matrix (Fin d) (Fin d) ℝ → Matrix (Fin d) (Fin d) ℝ)
    (self_measurement_model : Option (FlowModel d m))
    (hyp : FlowHypothesis d m) (measurement_model : FlowModel d m)
    (hres : resolveModel self_measurement_model hyp.measurement.measurement_model =
      some measurement_model) :
    ∀ u, GromovFlowParticleUpdater.update integ chol self_measurement_model hyp = .ok u →
      u.particles.length = hyp.prediction.particles.length
      ∧ u.particles.map Particle.weight = hyp.prediction.particles.map Particle.weight
      ∧ u.timestamp = hyp.measurement.timestamp := by
  intro u hu
  unfold GromovFlowParticleUpdater.update at hu
  rw [hres] at hu
  have hv := Except.ok.inj hu
  subst hv
  refine ⟨by simp, ?_, rfl⟩
  show (hyp.prediction.particles.map _).map Particle.weight = _
  rw [List.map_map]
  exact List.map_congr_left (fun p _ => rfl)

/-- Concrete flow model with an exact linear matrix, for witnesses. -/
noncomputable def wFlowModelA : FlowModel 1 1 where
  matrix := some 1
  jacobian := fun _ => 1
  function := fun v => v
  covar := 1

/-- Concrete flow model without a linear matrix, for witnesses. -/
noncomputable def wFlowModelB : FlowModel 1 1 where
  matrix := none
  jacobian := fun _ => 1
  function := fun v => v
  covar := 1

theorem claim_c3_witness :
    flowFunction id wFlowModelA 1 0 0 0 = flowFunctionSpec id wFlowModelA 1 0 0 0
    ∧ (wFlowModelA.matrix = some 1 ∧ flowH wFlowModelA 0 = 1)
    ∧ (wFlowModelB.matrix = none ∧ flowH wFlowModelB 0 = wFlowModelB.jacobian 0) := by
  have hA := claim_c3 id wFlowModelA 1 0
  have hB := claim_c3 id wFlowModelB 1 0
  exact ⟨hA.1 0 0, ⟨rfl, hA.2.1 0 1 rfl⟩, ⟨rfl, hB.2.2 0 rfl⟩⟩

/-- Concrete integration function for witnesses (keeps the state). -/
noncomputable def wInteg :
    ((Fin 1 → ℝ) → ℝ → (Fin 1 → ℝ) × Matrix (Fin 1) (Fin 1) ℝ) →
      List ℝ → (Fin 1 → ℝ) → (Fin 1 → ℝ) :=
  fun _ _ v => v

/-- Concrete flow hypothesis for witnesses. -/
noncomputable def wFlowHyp : FlowHypothesis 1 1 where
  prediction := { particles := [{ state_vector := fun _ => 0, weight := 1 }], timestamp := 2 }
  measurement := { state_vector := fun _ => 1, timestamp := 7, measurement_model := none }

/-- The value returned by the flow update on the witness inputs. -/
noncomputable def wFlowU : FlowStateUpdate 1 :=
  { particles := wFlowHyp.prediction.particles.map (fun particle =>
      { particle with
        state_vector :=
          wInteg (flowFunction id wFlowModelA (particleCovar wFlowHyp.prediction)
              wFlowHyp.measurement.state_vector)
            (gromovTimeSteps.map (fun q => (q : ℝ))) particle.state_vector }),
    fixed_covar := none,
    timestamp := wFlowHyp.measurement.timestamp }

theorem claim_c5_witness :
    (resolveModel (some wFlowModelA) wFlowHyp.measurement.measurement_model =
      some wFlowModelA)
    ∧ (wFlowU.particles.length = wFlowHyp.prediction.particles.length
      ∧ wFlowU.particles.map Particle.weight =
          wFlowHyp.prediction.particles.map Particle.weight
      ∧ wFlowU.timestamp = wFlowHyp.measurement.timestamp) :=
  ⟨rfl, claim_c5 wInteg id (some wFlowModelA) wFlowHyp wFlowModelA rfl wFlowU rfl⟩

/-- A Gaussian view of a prediction: mean, covariance and timestamp
(`GaussianStatePrediction`). -/
structure GaussianStatePrediction (d : ℕ) where
  state_vector : Fin d → ℝ
  covar : Matrix (Fin d) (Fin d) ℝ
  timestamp : ℕ

/-- The result of the parallel linearised update: a posterior mean and
covariance. -/
structure KalmanUpdate (d : ℕ) where
  state_vector : Fin d → ℝ
  covar : Matrix (Fin d) (Fin d) ℝ

/-- The Gaussian view built from the particle prediction (lines 192-197):
the particle mean, the prior particle covariance and the prior timestamp. -/
noncomputable def gaussianView {d : ℕ} (pred : ParticleState (Fin d → ℝ)) :
    GaussianStatePrediction d :=
  { state_vector := particleMean pred, covar := particleCovar pred,
    timestamp := pred.timestamp }

/-- `GromovFlowKalmanParticleUpdater.update` (lines 189-208): run the flow
update first, run the Kalman updater on the Gaussian view of the particle
prediction, and assemble the output from the flow branch's state vectors and
weights together with the Kalman branch's posterior covariance as the fixed
covariance.  `kalman_updater` abstracts the parallel linearised branch
(`stonesoup/updater/kalman.py`, outside the embedded file); a failure of its
covariance update is an error it returns, and either branch's error
propagates. -/
noncomputable def GromovFlowKalmanParticleUpdater.update {d m : ℕ}
    (integ : ((Fin d → ℝ) → ℝ → (Fin d → ℝ) × Matrix (Fin d) (Fin d) ℝ) →
      List ℝ → (Fin d → ℝ) → (Fin d → ℝ))
    (chol : Matrix (Fin d) (Fin d) ℝ → Matrix (Fin d) (Fin d) ℝ)
    (kalman_updater : GaussianStatePrediction d → FlowDetection d m →
      Except UpdateError (KalmanUpdate d))
    (self_measurement_model : Option (FlowModel d m))
    (hyp : FlowHypothesis d m) :
    Except UpdateError (FlowStateUpdate d) :=
  match GromovFlowParticleUpdater.update integ chol self_measurement_model hyp with
  | .error e => .error e
  | .ok particle_update =>
    match kalman_updater (gaussianView hyp.prediction) hyp.measurement with
    | .error e => .error e
    | .ok kalman_update =>
      .ok { particles :=
              List.zipWith (fun v w => { state_vector := v, weight := w })
                particle_update.state_vector particle_update.weight,
            fixed_covar := some kalman_update.covar,
            timestamp := particle_update.timestamp }

theorem map_sv_zipWith_mk {W : Type} (vs : List W) (ws : List ℝ)
    (h : vs.length = ws.length) :
    (List.zipWith (fun v w => ({ state_vector := v, weight := w } : Particle W)) vs ws).map
      Particle.state_vector = vs := by
  rw [List.map_zipWith]
  exact (zipWith_proj_left id vs ws h).trans (List.map_id vs)

theorem map_w_zipWith_mk {W : Type} (vs : List W) (ws : List ℝ)
    (h : vs.length = ws.length) :
    (List.zipWith (fun v w => ({ state_vector := v, weight := w } : Particle W)) vs ws).map
      Particle.weight = ws := by
  rw [List.map_zipWith]
  exact zipWith_proj_right vs ws h

/-- Claim C2: when both branches succeed, the hybrid update's state vectors
and weights are exactly the flow branch's, and its fixed covariance is
exactly the Kalman branch's posterior covariance — substituted, not blended
with the particle sample covariance. -/
theorem claim_c2 {d m : ℕ}
    (integ : ((Fin d → ℝ) → ℝ → (Fin d → ℝ) × Matrix (Fin d) (Fin d) ℝ) →
      List ℝ → (Fin d → ℝ) → (Fin d → ℝ))
    (chol : Matrix (Fin d) (Fin d) ℝ → Matrix (Fin d) (Fin d) ℝ)
    (kalman_updater : GaussianStatePrediction d → FlowDetection d m →
      Except UpdateError (KalmanUpdate d))
    (self_measurement_model : Option (FlowModel d m))
    (hyp : FlowHypothesis d m) (pu : FlowStateUpdate d) (ku : KalmanUpdate d)
    (h1 : GromovFlowParticleUpdater.update integ chol self_measurement_model hyp = .ok pu)
    (h2 : kalman_updater (gaussianView hyp.prediction) hyp.measurement = .ok ku) :
    GromovFlowKalmanParticleUpdater.update integ chol kalman_updater
        self_measurement_model hyp =
      .ok { particles :=
              List.zipWith (fun v w => { state_vector := v, weight := w })
                pu.state_vector pu.weight,
            fixed_covar := some ku.covar,
            timestamp := pu.timestamp }
    ∧ ∀ u, GromovFlowKalmanParticleUpdater.update integ chol kalman_updater
          self_measurement_model hyp = .ok u →
        u.state_vector = pu.state_vector
        ∧ u.weight = pu.weight
        ∧ u.fixed_covar = some ku.covar
        ∧ u.timestamp = pu.timestamp := by
  have hbody : GromovFlowKalmanParticleUpdater.update integ chol kalman_updater
      self_measurement_model hyp =
      .ok { particles :=
              List.zipWith (fun v w => ({ state_vector := v, weight := w } :
                Particle (Fin d → ℝ)))
                pu.state_vector pu.weight,
            fixed_covar := some ku.covar,
            timestamp := pu.timestamp } := by
    unfold GromovFlowKalmanParticleUpdater.update
    rw [h1, h2]
  refine ⟨hbody, ?_⟩
  intro u hu
  rw [hbody] at hu
  have hv := Except.ok.inj hu
  subst hv
  have hl : pu.state_vector.length = pu.weight.length := by
    simp [FlowStateUpdate.state_vector, FlowStateUpdate.weight]
  exact ⟨map_sv_zipWith_mk pu.state_vector pu.weight hl,
    map_w_zipWith_mk pu.state_vector pu.weight hl, rfl, rfl⟩

/-- Concrete Kalman result for witnesses. -/
noncomputable def wKalU : KalmanUpdate 1 where
  state_vector := fun _ => 0
  covar := 1

theorem claim_c2_witness :
    (GromovFlowParticleUpdater.update wInteg id (some wFlowModelA) wFlowHyp = .ok wFlowU)
    ∧ ((fun (_ : GaussianStatePrediction 1) (_ : FlowDetection 1 1) =>
          (.ok wKalU : Except UpdateError (KalmanUpdate 1)))
        (gaussianView wFlowHyp.prediction) wFlowHyp.measurement = .ok wKalU)
    ∧ GromovFlowKalmanParticleUpdater.update wInteg id
        (fun _ _ => .ok wKalU) (some wFlowModelA) wFlowHyp =
      .ok { particles :=
              List.zipWith (fun v w => { state_vector := v, weight := w })
                wFlowU.state_vector wFlowU.weight,
            fixed_covar := some wKalU.covar,
            timestamp := wFlowU.timestamp } := by
  have h := claim_c2 wInteg id (fun _ _ => .ok wKalU) (some wFlowModelA) wFlowHyp
    wFlowU wKalU rfl rfl
  exact ⟨rfl, rfl, h.1⟩

/-- Claim C9: errors propagate and no partial update is returned.  When
neither the measurement nor the updater carries a measurement model,
`ParticleUpdater.update` fails with a configuration error; when the
linearised branch's covariance update fails, the hybrid update returns that
error rather than a result with the particle-only covariance. -/
theorem claim_c9 :
    (∀ (V M : Type) (resampler : Option (ParticleState V → ParticleState V))
        (hyp : Hypothesis V M), hyp.measurement.measurement_model = none →
      ParticleUpdater.update resampler none hyp = .error .configurationError)
    ∧ (∀ (d m : ℕ)
        (integ : ((Fin d → ℝ) → ℝ → (Fin d → ℝ) × Matrix (Fin d) (Fin d) ℝ) →
          List ℝ → (Fin d → ℝ) → (Fin d → ℝ))
        (chol : Matrix (Fin d) (Fin d) ℝ → Matrix (Fin d) (Fin d) ℝ)
        (kalman_updater : GaussianStatePrediction d → FlowDetection d m →
          Except UpdateError (KalmanUpdate d))
        (self_measurement_model : Option (FlowModel d m)) (hyp : FlowHypothesis d m)
        (pu : FlowStateUpdate d) (e : UpdateError),
      GromovFlowParticleUpdater.update integ chol self_measurement_model hyp = .ok pu →
      kalman_updater (gaussianView hyp.prediction) hyp.measurement = .error e →
      GromovFlowKalmanParticleUpdater.update integ chol kalman_updater
        self_measurement_model hyp = .error e) := by
  constructor
  · intro V M resampler hyp h
    unfold ParticleUpdater.update
    rw [h]
    rfl
  · intro d m integ chol kalman_updater self_measurement_model hyp pu e h1 h2
    unfold GromovFlowKalmanParticleUpdater.update
    rw [h1, h2]

theorem claim_c9_witness :
    (wHyp.measurement.measurement_model = none
      ∧ ParticleUpdater.update none none wHyp = .error .configurationError)
    ∧ (GromovFlowParticleUpdater.update wInteg id (some wFlowModelA) wFlowHyp = .ok wFlowU
      ∧ (fun (_ : GaussianStatePrediction 1) (_ : FlowDetection 1 1) =>
            (.error .numericalError : Except UpdateError (KalmanUpdate 1)))
          (gaussianView wFlowHyp.prediction) wFlowHyp.measurement = .error .numericalError
      ∧ GromovFlowKalmanParticleUpdater.update wInteg id
          (fun _ _ => .error .numericalError) (some wFlowModelA) wFlowHyp =
        .error .numericalError) :=
  ⟨⟨rfl, claim_c9.1 ℕ ℕ none wHyp rfl⟩,
   rfl, rfl,
   claim_c9.2 1 1 wInteg id (fun _ _ => .error .numericalError) (some wFlowModelA)
     wFlowHyp wFlowU .numericalError rfl rfl⟩
